import Mathlib

/-!
Verification of the deltatune "now playing" overlay core (src/main.rs).

The Rust source is shallowly embedded: `f32` values become `ℚ` with the
float operations modelled as exact rational arithmetic, byte values (`u8`)
become `ℕ`, strings become `List Char`, the two-slot display controller
becomes a record with explicit slot fields, and the per-frame mutation of
the Rust code becomes explicit state passing.
-/

set_option maxRecDepth 4000

/-- Rust `f32::round`: round half away from zero, as an integer result. -/
def rustRound (q : ℚ) : ℤ :=
  if 0 ≤ q then ⌊q + 1/2⌋ else -⌊-q + 1/2⌋

/-- Rust `as i32` on an `f32` value: truncation toward zero
(saturation at the `i32` range is not modelled; all uses are guarded). -/
def rustTruncI (q : ℚ) : ℤ :=
  if 0 ≤ q then ⌊q⌋ else ⌈q⌉

/-- Rust `f32::clamp(lo, hi)`. -/
def rustClamp (x lo hi : ℚ) : ℚ :=
  min (max x lo) hi

/-- `interpolate_quadratic` from src/main.rs: ease-out-quadratic interpolation. -/
def interpolate_quadratic (a b t : ℚ) : ℚ :=
  let one_minus_t := 1 - t
  let progress := 1 - one_minus_t * one_minus_t
  a + (b - a) * progress

/-- `MediaStatus` from src/main.rs. -/
inductive MediaStatus where
  | playing
  | paused
  | stopped
deriving DecidableEq, Repr

/-- `MediaInfo` from src/main.rs; Rust `String`s are embedded as `List Char`. -/
structure MediaInfo where
  title : List Char
  artist : List Char
  status : MediaStatus
deriving DecidableEq, Repr

/-- `impl Default for MediaInfo`. -/
def MediaInfo.default : MediaInfo :=
  { title := [], artist := [], status := .stopped }

/-- `MediaState` from src/main.rs (the `last_update: Instant` field carries
no logic relevant to the core and is omitted). -/
structure MediaState where
  info : MediaInfo
deriving DecidableEq, Repr

/-- `impl Default for MediaState`. -/
def MediaState.default : MediaState :=
  { info := MediaInfo.default }

/-- `Settings` from src/main.rs. -/
structure Settings where
  scale_factor : ℚ
  scale_x : ℚ
  scale_y : ℚ
  text_scale : ℚ
  x_pos : ℤ
  y_pos : ℤ
  show_artist_name : Bool
  show_playback_status : Bool
  show_debug_overlay : Bool
  force_opaque_background : Bool
  background_opacity : ℚ
  hyprland_pin : Bool
  hide_automatically : Option ℚ
deriving DecidableEq, Repr

/-- `impl Default for Settings`. -/
def Settings.default : Settings where
  scale_factor := 3
  scale_x := 1
  scale_y := 1
  text_scale := 1
  x_pos := 0
  y_pos := 0
  show_artist_name := true
  show_playback_status := false
  show_debug_overlay := false
  force_opaque_background := false
  background_opacity := 0
  hyprland_pin := false
  hide_automatically := some (5/2)

/-- `DisplayState` from src/main.rs. -/
inductive DisplayState where
  | hidden
  | appearingDelay
  | appearing
  | visible
  | disappearing
deriving DecidableEq, Repr

/-- `DisplaySlot` from src/main.rs. -/
structure DisplaySlot where
  text : List Char
  state : DisplayState
  timer : ℚ
  opacity : ℚ
  offset_x : ℚ
deriving DecidableEq, Repr

/-- `DisplayController` from src/main.rs; the two-element array `slots`
is embedded as the two fields `slot0` and `slot1`. -/
structure DisplayController where
  slot0 : DisplaySlot
  slot1 : DisplaySlot
  primary_index : ℕ
  current_media : MediaInfo
deriving DecidableEq, Repr

/-- `controller.slots[i]` (indices other than 0 read the second slot; the
code only ever uses indices 0 and 1). -/
def slotAt (c : DisplayController) (i : ℕ) : DisplaySlot :=
  if i = 0 then c.slot0 else c.slot1

/-- `controller.slots[i] = s`. -/
def setSlotAt (c : DisplayController) (i : ℕ) (s : DisplaySlot) : DisplayController :=
  if i = 0 then { c with slot0 := s } else { c with slot1 := s }

/-- The slot currently marked primary. -/
def primarySlot (c : DisplayController) : DisplaySlot :=
  slotAt c c.primary_index

/-- `DisplayController::new()`. -/
def DisplayController.new : DisplayController where
  slot0 := { text := [], state := .hidden, timer := 0, opacity := 0, offset_x := 0 }
  slot1 := { text := [], state := .hidden, timer := 0, opacity := 0, offset_x := 0 }
  primary_index := 0
  current_media := MediaInfo.default

/-- Unicode `White_Space` code points, as used by Rust `char::is_whitespace`. -/
def isRustWhitespace (c : Char) : Bool :=
  c.toNat = 0x9 ∨ c.toNat = 0xA ∨ c.toNat = 0xB ∨ c.toNat = 0xC ∨ c.toNat = 0xD ∨
  c.toNat = 0x20 ∨ c.toNat = 0x85 ∨ c.toNat = 0xA0 ∨ c.toNat = 0x1680 ∨
  (0x2000 ≤ c.toNat ∧ c.toNat ≤ 0x200A) ∨ c.toNat = 0x2028 ∨ c.toNat = 0x2029 ∨
  c.toNat = 0x202F ∨ c.toNat = 0x205F ∨ c.toNat = 0x3000

/-- Rust `str::trim`. -/
def rustTrim (s : List Char) : List Char :=
  ((s.dropWhile isRustWhitespace).reverse.dropWhile isRustWhitespace).reverse

/-- Rust `String::replacen(pat, "", 1)` for a non-empty pattern: remove the
first occurrence of `pat`, if any. -/
def removeFirstOccurrence (s pat : List Char) : List Char :=
  match s with
  | [] => []
  | c :: cs =>
      if pat.isPrefixOf (c :: cs) then (c :: cs).drop pat.length
      else c :: removeFirstOccurrence cs pat

/-- `format_media_text` from src/main.rs. -/
def format_media_text (settings : Settings) (media : MediaInfo) : List Char :=
  if media.status = .stopped then []
  else
    let title := rustTrim media.title
    let artist := rustTrim media.artist
    let artist :=
      if (" - Topic".toList).isSuffixOf artist then artist.take (artist.length - 8)
      else artist
    let title :=
      if artist ≠ [] ∧ title ≠ [] then
        let pre := artist ++ " - ".toList
        let title := if pre.isPrefixOf title then removeFirstOccurrence title pre else title
        let suf := " - ".toList ++ artist
        let title := if suf.isSuffixOf title then title.take (title.length - suf.length) else title
        title
      else title
    let buffer : List Char :=
      if settings.show_playback_status then
        let icon : List Char :=
          match media.status with
          | .playing => "♪".toList
          | .paused => "⏸".toList
          | .stopped => []
        if icon ≠ [] then icon ++ "~   ".toList else []
      else if media.status = .playing then "♪~   ".toList
      else []
    let buffer := if title ≠ [] then buffer ++ title else buffer
    let buffer :=
      if settings.show_artist_name ∧ artist ≠ [] then
        (if buffer ≠ [] then buffer ++ ['\n'] else buffer) ++ artist
      else buffer
    buffer

/-- `update_slot_text` from src/main.rs. -/
def update_slot_text (slot : DisplaySlot) (text : List Char) : DisplaySlot :=
  if slot.text = text then slot else { slot with text := text }

/-- `Glyph` from src/main.rs: per-character atlas rectangle, pen offset and
advance (all `f32` in the source, embedded as `ℚ`). -/
structure Glyph where
  x : ℚ
  y : ℚ
  width : ℚ
  height : ℚ
  x_offset : ℚ
  y_offset : ℚ
  x_advance : ℚ
deriving DecidableEq, Repr

/-- `BitmapFont` from src/main.rs; the `HashMap<u32, Glyph>` becomes a
function from code points to optional glyphs. -/
structure BitmapFont where
  line_height : ℚ
  texture_width : ℚ
  texture_height : ℚ
  glyphs : ℕ → Option Glyph
  space_advance : ℚ

/-- `FontAtlas` from src/main.rs: RGBA8 pixels as a flat byte list. -/
structure FontAtlas where
  pixels : List ℕ
  width : ℕ
  height : ℕ

/-- One iteration of the character loop in `measure_text`. -/
def measureStep (font : BitmapFont) (scale : ℚ) (acc : ℚ × ℚ × ℕ) (ch : Char) : ℚ × ℚ × ℕ :=
  let (max_width, current_width, lines) := acc
  if ch = '\n' then (max max_width current_width, 0, lines + 1)
  else
    match font.glyphs ch.toNat with
    | some glyph => (max_width, current_width + glyph.x_advance * scale, lines)
    | none => (max_width, current_width + font.space_advance * scale, lines)

/-- `measure_text` from src/main.rs: returns `(max line width, total height)`. -/
def measure_text (text : List Char) (font : BitmapFont) (scale : ℚ) : ℚ × ℚ :=
  let r := text.foldl (measureStep font scale) (0, 0, 1)
  (max r.1 r.2.1, (r.2.2 : ℚ) * font.line_height * scale)

/-- Rust `(q).round().clamp(0.0, 255.0) as u8`: the final channel
conversion used by `blend_pixel`. -/
def toByte (q : ℚ) : ℕ :=
  (min (max (rustRound q) 0) 255).toNat

/-- `blend_pixel` from src/main.rs.  The destination pixel is the byte
quadruple `(b, g, r, a)` exactly as it is laid out in the canvas slice. -/
def blend_pixel (dst : ℕ × ℕ × ℕ × ℕ) (src_r src_g src_b src_a : ℕ)
    (opacity : ℚ) : ℕ × ℕ × ℕ × ℕ :=
  let sa := ((src_a : ℚ) / 255) * opacity
  if sa ≤ 0 then dst
  else
    let sr := ((src_r : ℚ) / 255) * sa
    let sg := ((src_g : ℚ) / 255) * sa
    let sb := ((src_b : ℚ) / 255) * sa
    let db := (dst.1 : ℚ) / 255
    let dg := (dst.2.1 : ℚ) / 255
    let dr := (dst.2.2.1 : ℚ) / 255
    let da := (dst.2.2.2 : ℚ) / 255
    let out_a := sa + da * (1 - sa)
    let out_r := sr + dr * (1 - sa)
    let out_g := sg + dg * (1 - sa)
    let out_b := sb + db * (1 - sa)
    (toByte (out_b * 255), toByte (out_g * 255), toByte (out_r * 255), toByte (out_a * 255))

/-- The spec's formula for the blend (§4.5), written from the spec's words
for comparison with `blend_pixel`: `out = src*sa + dst*(1-sa)` per channel
and `out_a = sa + dst_a*(1-sa)` with everything normalized to `[0,1]`,
results rounded and clamped to `[0,255]`. -/
def specSourceOver (dst : ℕ × ℕ × ℕ × ℕ) (src_r src_g src_b src_a : ℕ)
    (opacity : ℚ) : ℕ × ℕ × ℕ × ℕ :=
  let sa := ((src_a : ℚ) / 255) * opacity
  (toByte ((((src_b : ℚ) / 255) * sa + ((dst.1 : ℚ) / 255) * (1 - sa)) * 255),
   toByte ((((src_g : ℚ) / 255) * sa + ((dst.2.1 : ℚ) / 255) * (1 - sa)) * 255),
   toByte ((((src_r : ℚ) / 255) * sa + ((dst.2.2.1 : ℚ) / 255) * (1 - sa)) * 255),
   toByte ((sa + ((dst.2.2.2 : ℚ) / 255) * (1 - sa)) * 255))

/-- The per-chunk loop of `fill_background`: every aligned 4-byte pixel
becomes `(0, 0, 0, a)`; a trailing fragment shorter than 4 bytes is left
untouched (`chunks_exact_mut`). -/
def fillBytes (a : ℕ) : List ℕ → List ℕ
  | _b :: _g :: _r :: _al :: rest => 0 :: 0 :: 0 :: a :: fillBytes a rest
  | rest => rest

/-- `fill_background` from src/main.rs. -/
def fill_background (canvas : List ℕ) ( force_opaque : Bool) (opacity : ℚ) : List ℕ :=
  let alpha := if force_opaque then 1 else rustClamp opacity 0 1
  let a := (rustRound (alpha * 255)).toNat
  fillBytes a canvas

/-- `(tex_y as u32 * atlas.width + tex_x as u32) * 4` from `draw_text`. -/
def srcIndex (atlas : FontAtlas) (tex_x tex_y : ℕ) : ℕ :=
  (tex_y * atlas.width + tex_x) * 4

/-- `(dest_y as u32 * canvas_w + dest_x as u32) * 4` from `draw_text`. -/
def dstIndex (canvas_w dest_x dest_y : ℕ) : ℕ :=
  (dest_y * canvas_w + dest_x) * 4

/-- The `blend_pixel(&mut canvas[dst_index..dst_index + 4], ...)` call:
read the four destination bytes, blend, write the result back. -/
def blendPixelAt (canvas : List ℕ) (i : ℕ) (src_r src_g src_b src_a : ℕ)
    (opacity : ℚ) : List ℕ :=
  let out := blend_pixel
    (canvas.getD i 0, canvas.getD (i+1) 0, canvas.getD (i+2) 0, canvas.getD (i+3) 0)
    src_r src_g src_b src_a opacity
  ((((canvas.set i out.1).set (i+1) out.2.1).set (i+2) out.2.2.1).set (i+3) out.2.2.2)

/-- The body of the inner `dx` loop of `draw_text`: per-destination-pixel
source/destination/texture bounds guards, transparency cull, then blend. -/
def drawGlyphPixel (canvas_w : ℕ) (atlas : FontAtlas) (glyph : Glyph)
    (scale opacity x0 : ℚ) (src_y dest_y : ℤ) (canvas : List ℕ) (dx : ℕ) : List ℕ :=
  let src_x : ℤ := ⌊(dx : ℚ) / scale⌋
  if src_x < 0 ∨ rustTruncI glyph.width ≤ src_x then canvas
  else
    let dest_x : ℤ := rustRound x0 + dx
    if dest_x < 0 ∨ (canvas_w : ℤ) ≤ dest_x then canvas
    else
      let tex_x : ℤ := rustTruncI glyph.x + src_x
      let tex_y : ℤ := rustTruncI glyph.y + src_y
      if tex_x < 0 ∨ tex_y < 0 ∨ (atlas.width : ℤ) ≤ tex_x ∨ (atlas.height : ℤ) ≤ tex_y then
        canvas
      else
        let si := srcIndex atlas tex_x.toNat tex_y.toNat
        let src_r := atlas.pixels.getD si 0
        let src_g := atlas.pixels.getD (si+1) 0
        let src_b := atlas.pixels.getD (si+2) 0
        let src_a := atlas.pixels.getD (si+3) 0
        if src_a = 0 then canvas
        else
          blendPixelAt canvas (dstIndex canvas_w dest_x.toNat dest_y.toNat)
            src_r src_g src_b src_a opacity

/-- The body of the outer `dy` loop of `draw_text`: row-level guards, then
the inner loop over `0..dest_w`. -/
def drawGlyphRow (canvas_w canvas_h : ℕ) (atlas : FontAtlas) (glyph : Glyph)
    (scale opacity x0 y0 : ℚ) (dest_w : ℤ) (canvas : List ℕ) (dy : ℕ) : List ℕ :=
  let src_y : ℤ := ⌊(dy : ℚ) / scale⌋
  if src_y < 0 ∨ rustTruncI glyph.height ≤ src_y then canvas
  else
    let dest_y : ℤ := rustRound y0 + dy
    if dest_y < 0 ∨ (canvas_h : ℤ) ≤ dest_y then canvas
    else
      (List.range dest_w.toNat).foldl
        (drawGlyphPixel canvas_w atlas glyph scale opacity x0 src_y dest_y) canvas

/-- One character of the `draw_text` loop, acting on
`(canvas, cursor_x, cursor_y)`. -/
def drawCharStep (canvas_w canvas_h : ℕ) (font : BitmapFont) (atlas : FontAtlas)
    (scale origin_x opacity : ℚ) (acc : List ℕ × ℚ × ℚ) (ch : Char) : List ℕ × ℚ × ℚ :=
  let (canvas, cursor_x, cursor_y) := acc
  if ch = '\n' then (canvas, origin_x, cursor_y + font.line_height * scale)
  else
    match font.glyphs ch.toNat with
    | none => (canvas, cursor_x + font.space_advance * scale, cursor_y)
    | some glyph =>
        let x0 := cursor_x + glyph.x_offset * scale
        let y0 := cursor_y + glyph.y_offset * scale
        let dest_w : ℤ := max (rustRound (glyph.width * scale)) 1
        let dest_h : ℤ := max (rustRound (glyph.height * scale)) 1
        let canvas := (List.range dest_h.toNat).foldl
          (drawGlyphRow canvas_w canvas_h atlas glyph scale opacity x0 y0 dest_w) canvas
        (canvas, cursor_x + glyph.x_advance * scale, cursor_y)

/-- `draw_text` from src/main.rs. -/
def draw_text (canvas : List ℕ) (canvas_w canvas_h : ℕ) (font : BitmapFont)
    (atlas : FontAtlas) (text : List Char) (scale origin_x origin_y opacity : ℚ) : List ℕ :=
  (text.foldl (drawCharStep canvas_w canvas_h font atlas scale origin_x opacity)
    (canvas, origin_x, origin_y)).1

/-- Timing constants from `update_display_slot` in src/main.rs. -/
def APPEAR_DELAY : ℚ := 1/2

/-- `APPEAR_DURATION = 0.75`. -/
def APPEAR_DURATION : ℚ := 3/4

/-- `DISAPPEAR_DURATION = 0.75`. -/
def DISAPPEAR_DURATION : ℚ := 3/4

/-- `STAY_TIME = 2.5`. -/
def STAY_TIME : ℚ := 5/2

/-- `SLIDE_IN_DISTANCE = 24.0`. -/
def SLIDE_IN_DISTANCE : ℚ := 24

/-- `SLIDE_OUT_DISTANCE = 24.0`. -/
def SLIDE_OUT_DISTANCE : ℚ := 24

/-- `update_display_slot` from src/main.rs: the per-frame advance of one
display slot.  Rust `slot.timer >= X` becomes `X ≤ slot.timer`. -/
def update_display_slot (slot : DisplaySlot) (settings : Settings) (media : MediaState)
    (dt : ℚ) : DisplaySlot :=
  let scale := settings.scale_factor * settings.text_scale
  let slot :=
    match slot.state with
    | .appearingDelay =>
        let slot := if slot.timer = 0 then { slot with opacity := 0, offset_x := 0 } else slot
        if APPEAR_DELAY ≤ slot.timer then { slot with state := .appearing, timer := 0 }
        else slot
    | .appearing =>
        let slot := if slot.timer = 0 then { slot with opacity := 0, offset_x := 0 } else slot
        let progress := rustClamp (slot.timer / APPEAR_DURATION) 0 1
        let slot := { slot with
          opacity := rustClamp (progress * (3/2) - 1/4) 0 1,
          offset_x := interpolate_quadratic (SLIDE_IN_DISTANCE * scale) 0 progress }
        if APPEAR_DURATION ≤ slot.timer then { slot with state := .visible, timer := 0 }
        else slot
    | .visible =>
        let slot := if slot.timer = 0 then { slot with opacity := 1, offset_x := 0 } else slot
        match settings.hide_automatically with
        | some hide_after =>
            if hide_after ≤ slot.timer then { slot with state := .disappearing, timer := 0 }
            else slot
        | none =>
            if settings.show_playback_status = false ∧ STAY_TIME ≤ slot.timer ∧
                (media.info.status = .stopped ∨ media.info.status = .paused) then
              { slot with state := .disappearing, timer := 0 }
            else slot
    | .disappearing =>
        let slot := if slot.timer = 0 then { slot with opacity := 1, offset_x := 0 } else slot
        let progress := rustClamp (slot.timer / DISAPPEAR_DURATION) 0 1
        let slot := { slot with
          opacity := rustClamp ((1 - progress) * (3/2) - 1/4) 0 1,
          offset_x := interpolate_quadratic (-SLIDE_OUT_DISTANCE * scale) 0 (1 - progress) }
        if DISAPPEAR_DURATION ≤ slot.timer then { slot with state := .hidden, opacity := 0 }
        else slot
    | .hidden => { slot with opacity := 0, offset_x := 0 }
  if slot.state ≠ DisplayState.hidden then { slot with timer := slot.timer + dt } else slot

/-- `swap_and_show` from src/main.rs. -/
def swap_and_show (controller : DisplayController) (settings : Settings) : DisplayController :=
  let primary_index := controller.primary_index
  let secondary_index := 1 - primary_index
  let controller := { controller with primary_index := secondary_index }
  let new_primary := controller.primary_index
  let text := format_media_text settings controller.current_media
  let controller :=
    setSlotAt controller new_primary (update_slot_text (slotAt controller new_primary) text)
  if (slotAt controller secondary_index).state = .hidden then
    setSlotAt controller new_primary
      { slotAt controller new_primary with state := .appearing, timer := 0 }
  else
    let controller :=
      if (slotAt controller secondary_index).state ≠ .disappearing then
        setSlotAt controller secondary_index
          { slotAt controller secondary_index with state := .disappearing, timer := 0 }
      else controller
    setSlotAt controller new_primary
      { slotAt controller new_primary with state := .appearingDelay, timer := 0 }

/-- The trigger-decision part of `X11App::update_display_state` in
src/main.rs (everything up to, and including, the optional `swap_and_show`;
the per-slot updates that follow are `update_display_state` below). -/
def trigger_phase (display : DisplayController) (settings : Settings)
    (media : MediaState) : DisplayController :=
  let title_changed : Bool :=
    decide (display.current_media ≠ media.info ∧
      display.current_media.title ≠ media.info.title)
  let artist_changed : Bool :=
    decide (display.current_media ≠ media.info ∧
      display.current_media.artist ≠ media.info.artist)
  let status_changed : Bool :=
    decide (display.current_media ≠ media.info ∧
      display.current_media.status ≠ media.info.status)
  let display :=
    if display.current_media ≠ media.info then { display with current_media := media.info }
    else display
  let should_update : Bool :=
    if settings.show_playback_status then title_changed || artist_changed || status_changed
    else title_changed || artist_changed
  let should_update : Bool :=
    if !should_update && !settings.show_playback_status && status_changed &&
        decide (media.info.status = .playing) then
      true
    else should_update
  let primary_index := display.primary_index
  let should_update : Bool :=
    if !settings.show_playback_status && should_update &&
        decide (media.info.status ≠ .playing) &&
        decide ((slotAt display primary_index).state = .hidden) then
      false
    else should_update
  if should_update then
    match (slotAt display primary_index).state with
    | .hidden => swap_and_show display settings
    | .visible =>
        if title_changed || artist_changed then swap_and_show display settings else display
    | .disappearing => swap_and_show display settings
    | .appearingDelay => display
    | .appearing => display
  else display

/-- `X11App::update_display_state` from src/main.rs: the trigger decision
followed by the per-frame update of both slots. -/
def update_display_state (display : DisplayController) (settings : Settings)
    (media : MediaState) (dt : ℚ) : DisplayController :=
  let display := trigger_phase display settings media
  { display with
    slot0 := update_display_slot display.slot0 settings media dt
    slot1 := update_display_slot display.slot1 settings media dt }

/-- The per-slot update loop at the end of `update_display_state`
(`for slot in self.display.slots.iter_mut() { update_display_slot(...) }`),
without the preceding trigger decision. -/
def updateSlotsOnly (c : DisplayController) (settings : Settings) (media : MediaState)
    (dt : ℚ) : DisplayController :=
  { c with
    slot0 := update_display_slot c.slot0 settings media dt
    slot1 := update_display_slot c.slot1 settings media dt }

/-- A slot is in one of the two appearing states. -/
def appearingIsh (s : DisplaySlot) : Prop :=
  s.state = DisplayState.appearingDelay ∨ s.state = DisplayState.appearing

instance (s : DisplaySlot) : Decidable (appearingIsh s) := by
  unfold appearingIsh
  infer_instance

/-- The inductive invariant of the guarded display controller: the primary
index addresses one of the two slots, and only the primary slot can be in
an appearing state. -/
def controllerInv (c : DisplayController) : Prop :=
  c.primary_index ≤ 1 ∧
  (appearingIsh c.slot0 → c.primary_index = 0) ∧
  (appearingIsh c.slot1 → c.primary_index = 1)

/-- Display-controller states reachable from `DisplayController::new()` by
per-frame `update_display_state` steps with positive `dt` (`swap_and_show`
invoked only through the code's trigger decision). -/
inductive ReachableG : DisplayController → Prop
  | init : ReachableG DisplayController.new
  | step (c : DisplayController) (settings : Settings) (media : MediaState) (dt : ℚ) :
      ReachableG c → 0 < dt → ReachableG (update_display_state c settings media dt)

/-- A bitmap font with a single glyph, for the witness below. -/
def witFont : BitmapFont where
  line_height := 32
  texture_width := 2
  texture_height := 2
  glyphs := fun n => if n = 65 then some ⟨0, 0, 8, 8, 0, 0, 10⟩ else none
  space_advance := 8

/-- A 2 by 2 transparent atlas, for the witness below. -/
def witAtlas : FontAtlas where
  pixels := List.replicate 16 0
  width := 2
  height := 2

/-- Raw interleaving for the C2 counterexample: swap, two one-second
frames, swap again, frames of 1 s, 2.5 s and 1 s.  After the last frame both
slots are `Disappearing`. -/
def c2Raw7 : DisplayController :=
  updateSlotsOnly (updateSlotsOnly (updateSlotsOnly
      (swap_and_show (updateSlotsOnly (updateSlotsOnly
        (swap_and_show DisplayController.new Settings.default)
        Settings.default MediaState.default 1) Settings.default MediaState.default 1)
        Settings.default)
      Settings.default MediaState.default 1) Settings.default MediaState.default (5/2))
    Settings.default MediaState.default 1

/-- One further one-second frame: both slots complete `Disappearing` and
turn `Hidden` with offset `-72`. -/
def c2Raw8 : DisplayController :=
  updateSlotsOnly c2Raw7 Settings.default MediaState.default 1

/-- Constructor disequalities of `DisplayState`, as rewrite rules for the
state-machine computations. -/
@[simp]
theorem ds_appearing_ne_hidden : DisplayState.appearing ≠ DisplayState.hidden := by decide

/-- `AppearingDelay` is not `Hidden`. -/
@[simp]
theorem ds_appearingDelay_ne_hidden : DisplayState.appearingDelay ≠ DisplayState.hidden := by
  decide

/-- `Visible` is not `Hidden`. -/
@[simp]
theorem ds_visible_ne_hidden : DisplayState.visible ≠ DisplayState.hidden := by decide

/-- `Disappearing` is not `Hidden`. -/
@[simp]
theorem ds_disappearing_ne_hidden : DisplayState.disappearing ≠ DisplayState.hidden := by
  decide

/-- `Hidden` is not `Disappearing`. -/
@[simp]
theorem ds_hidden_ne_disappearing : DisplayState.hidden ≠ DisplayState.disappearing := by
  decide

/-- `Visible` is not `Disappearing`. -/
@[simp]
theorem ds_visible_ne_disappearing : DisplayState.visible ≠ DisplayState.disappearing := by
  decide

/-- `Appearing` is not `Disappearing`. -/
@[simp]
theorem ds_appearing_ne_disappearing : DisplayState.appearing ≠ DisplayState.disappearing := by
  decide

/-- The line counter of the `measure_text` fold grows by exactly the number
of newline characters consumed. -/
theorem measure_fold_lines (font : BitmapFont) (scale : ℚ) :
    ∀ (text : List Char) (acc : ℚ × ℚ × ℕ),
      (text.foldl (measureStep font scale) acc).2.2 = acc.2.2 + text.count '\n' := by
  intro text
  induction text with
  | nil => intro acc; simp
  | cons c cs ih =>
      intro acc
      rw [List.foldl_cons, ih]
      obtain ⟨mw, cw, l⟩ := acc
      by_cases hc : c = '\n'
      · subst hc
        simp [measureStep, List.count_cons]
        omega
      · cases hg : font.glyphs c.toNat <;>
          simp [measureStep, hc, hg, List.count_cons, Ne.symm hc]

/-- C9: for every text, font and scale, the height returned by
`measure_text` equals `(number of newline characters + 1) * lineHeight * scale`. -/
theorem measure_text_height (text : List Char) (font : BitmapFont) (scale : ℚ) :
    (measure_text text font scale).2 =
      ((text.count '\n' : ℚ) + 1) * font.line_height * scale := by
  show ((List.foldl (measureStep font scale) (0, 0, 1) text).2.2 : ℚ) *
      font.line_height * scale = _
  rw [measure_fold_lines font scale text (0, 0, 1)]
  push_cast
  ring

/-- `update_slot_text` changes at most the text. -/
@[simp]
theorem update_slot_text_state (s : DisplaySlot) (t : List Char) :
    (update_slot_text s t).state = s.state := by
  unfold update_slot_text
  split_ifs <;> rfl

/-- `update_slot_text` preserves the timer. -/
@[simp]
theorem update_slot_text_timer (s : DisplaySlot) (t : List Char) :
    (update_slot_text s t).timer = s.timer := by
  unfold update_slot_text
  split_ifs <;> rfl

/-- `update_slot_text` preserves the opacity. -/
@[simp]
theorem update_slot_text_opacity (s : DisplaySlot) (t : List Char) :
    (update_slot_text s t).opacity = s.opacity := by
  unfold update_slot_text
  split_ifs <;> rfl

/-- `update_slot_text` preserves the offset. -/
@[simp]
theorem update_slot_text_offset (s : DisplaySlot) (t : List Char) :
    (update_slot_text s t).offset_x = s.offset_x := by
  unfold update_slot_text
  split_ifs <;> rfl

/-- A `Hidden` slot is pinned by its update: opacity and offset forced to 0,
state and timer unchanged. -/
theorem update_hidden_eq (slot : DisplaySlot) (settings : Settings) (media : MediaState)
    (dt : ℚ) (hs : slot.state = DisplayState.hidden) :
    update_display_slot slot settings media dt =
      { slot with opacity := 0, offset_x := 0 } := by
  simp [update_display_slot, hs]

/-- An `Appearing` slot whose timer has not yet reached the appear duration
stays `Appearing`, takes the curve opacity/offset, and accumulates `dt`. -/
theorem update_appearing_lt (slot : DisplaySlot) (settings : Settings) (media : MediaState)
    (dt : ℚ) (hs : slot.state = DisplayState.appearing) (h : slot.timer < 3/4) :
    update_display_slot slot settings media dt =
      ⟨slot.text, DisplayState.appearing, slot.timer + dt,
        rustClamp (rustClamp (slot.timer / APPEAR_DURATION) 0 1 * (3/2) - 1/4) 0 1,
        interpolate_quadratic
          (SLIDE_IN_DISTANCE * (settings.scale_factor * settings.text_scale)) 0
          (rustClamp (slot.timer / APPEAR_DURATION) 0 1)⟩ := by
  have hn : ¬ APPEAR_DURATION ≤ slot.timer := by
    unfold APPEAR_DURATION
    exact not_le.mpr h
  have hn0 : ¬ APPEAR_DURATION ≤ (0 : ℚ) := by
    unfold APPEAR_DURATION
    norm_num
  by_cases h0 : slot.timer = 0 <;>
    simp [update_display_slot, hs, h0, hn, hn0]

/-- An `Appearing` slot whose timer has reached the appear duration
transitions to `Visible` with opacity 1 and offset 0; its new timer is the
frame's `dt`. -/
theorem update_appearing_ge (slot : DisplaySlot) (settings : Settings) (media : MediaState)
    (dt : ℚ) (hs : slot.state = DisplayState.appearing) (h : 3/4 ≤ slot.timer) :
    update_display_slot slot settings media dt =
      ⟨slot.text, DisplayState.visible, dt, 1, 0⟩ := by
  have h0 : ¬ slot.timer = 0 := by
    intro h0
    rw [h0] at h
    norm_num at h
  have hge : APPEAR_DURATION ≤ slot.timer := by
    unfold APPEAR_DURATION
    exact h
  have hp : rustClamp (slot.timer / APPEAR_DURATION) 0 1 = 1 := by
    unfold rustClamp APPEAR_DURATION
    have h1 : (1 : ℚ) ≤ slot.timer / (3/4) := by
      rw [le_div_iff₀ (by norm_num : (0 : ℚ) < 3/4)]
      linarith
    rw [max_eq_left (le_trans zero_le_one h1), min_eq_right h1]
  have hop : rustClamp ((3 : ℚ)/2 - 4⁻¹) 0 1 = 1 := by
    unfold rustClamp
    norm_num
  have hoff : ∀ a : ℚ, interpolate_quadratic a 0 1 = 0 := by
    intro a
    unfold interpolate_quadratic
    ring
  simp [update_display_slot, hs, h0, hge, hp, hop, hoff]

/-- A `Visible` slot with a running timer below every applicable hide
threshold just accumulates `dt`. -/
theorem update_visible_stay (slot : DisplaySlot) (settings : Settings) (media : MediaState)
    (dt : ℚ) (hs : slot.state = DisplayState.visible) (h0 : slot.timer ≠ 0)
    (hhide : ∀ hq, settings.hide_automatically = some hq → slot.timer < hq)
    (hstay : slot.timer < 5/2) :
    update_display_slot slot settings media dt = { slot with timer := slot.timer + dt } := by
  cases hh : settings.hide_automatically with
  | some hq =>
      have := hhide hq hh
      simp [update_display_slot, hs, h0, hh, not_le.mpr this]
  | none =>
      have hstay' : ¬ STAY_TIME ≤ slot.timer := by
        unfold STAY_TIME
        exact not_le.mpr hstay
      simp [update_display_slot, hs, h0, hh, hstay']

/-- A `Visible` slot whose timer stays below 1/2 s across a frame sequence
(in particular below the stay time and below any configured auto-hide
threshold of at least 1/2 s) just accumulates the elapsed time. -/
theorem visible_run (settings : Settings) (media : MediaState)
    (hhide : ∀ hq, settings.hide_automatically = some hq → 1/2 ≤ hq) :
    ∀ (dts : List ℚ) (slot : DisplaySlot),
      slot.state = DisplayState.visible → 0 < slot.timer →
      (∀ d ∈ dts, 0 < d) →
      slot.timer + (dts.dropLast).sum < 1/2 →
      dts.foldl (fun s d => update_display_slot s settings media d) slot =
        { slot with timer := slot.timer + dts.sum } := by
  intro dts
  induction dts with
  | nil =>
      intro slot hs ht hpos hbound
      simp
  | cons d rest ih =>
      intro slot hs ht hpos hbound
      have hd : 0 < d := hpos d (by simp)
      have htlt : slot.timer < 1/2 := by
        cases rest with
        | nil => simpa using hbound
        | cons d2 rest2 =>
            rw [List.dropLast_cons₂, List.sum_cons] at hbound
            have hsum : 0 ≤ (List.dropLast (d2 :: rest2)).sum := by
              apply List.sum_nonneg
              intro x hx
              exact le_of_lt (hpos x (List.mem_cons_of_mem d
                (List.mem_of_mem_dropLast hx)))
            linarith
      have hstep := update_visible_stay slot settings media d hs (ne_of_gt ht)
        (fun hq hh => lt_of_lt_of_le htlt (hhide hq hh)) (by linarith)
      rw [List.foldl_cons, hstep]
      cases rest with
      | nil => simp
      | cons d2 rest2 =>
          rw [ih { slot with timer := slot.timer + d } hs
            (by show (0 : ℚ) < slot.timer + d; linarith)
            (fun x hx => hpos x (List.mem_cons_of_mem d hx)) ?_]
          · simp [List.sum_cons]
            ring
          · show slot.timer + d + (List.dropLast (d2 :: rest2)).sum < 1/2
            rw [List.dropLast_cons₂, List.sum_cons] at hbound
            linarith

/-- An `Appearing` slot driven by positive frame steps whose prefix before
the last step carries it past the appear duration lands in `Visible` with
opacity 1 and offset 0, provided the total elapsed time is at most 5/4 s so
that no hide threshold of at least 1/2 s can fire afterwards. -/
theorem appearing_run (settings : Settings) (media : MediaState)
    (hhide : ∀ hq, settings.hide_automatically = some hq → 1/2 ≤ hq) :
    ∀ (dts : List ℚ) (slot : DisplaySlot),
      dts ≠ [] →
      slot.state = DisplayState.appearing → 0 ≤ slot.timer →
      (∀ d ∈ dts, 0 < d) →
      3/4 ≤ slot.timer + (dts.dropLast).sum →
      slot.timer + dts.sum ≤ 5/4 →
      ∃ u : ℚ, 0 < u ∧
        dts.foldl (fun s d => update_display_slot s settings media d) slot =
          ⟨slot.text, DisplayState.visible, u, 1, 0⟩ := by
  intro dts
  induction dts with
  | nil => intro slot hne; exact absurd rfl hne
  | cons d rest ih =>
      intro slot _ hs ht hpos hlast hbound
      have hd : 0 < d := hpos d (by simp)
      by_cases hge : 3/4 ≤ slot.timer
      · have hstep := update_appearing_ge slot settings media d hs hge
        rw [List.foldl_cons, hstep]
        cases rest with
        | nil => exact ⟨d, hd, rfl⟩
        | cons d2 rest2 =>
            have htail : ∀ x ∈ (d2 :: rest2), (0 : ℚ) < x :=
              fun x hx => hpos x (List.mem_cons_of_mem d hx)
            have hlastpos : 0 < ((d2 :: rest2).getLast (by simp) : ℚ) :=
              htail _ (List.getLast_mem _)
            have hsplit : (d2 :: rest2).sum =
                (List.dropLast (d2 :: rest2)).sum + (d2 :: rest2).getLast (by simp) := by
              conv_lhs => rw [← List.dropLast_append_getLast
                (by simp : (d2 :: rest2) ≠ [])]
              rw [List.sum_append]
              simp
            have hbound2 : d + (List.dropLast (d2 :: rest2)).sum < 1/2 := by
              rw [List.sum_cons] at hbound
              linarith
            have hrun := visible_run settings media hhide (d2 :: rest2)
              ⟨slot.text, DisplayState.visible, d, 1, 0⟩ rfl hd htail hbound2
            rw [hrun]
            have hsumpos : 0 < (d2 :: rest2).sum := by
              have h0 : 0 ≤ rest2.sum := List.sum_nonneg fun x hx =>
                le_of_lt (htail x (by simp [hx]))
              have hd2 : 0 < d2 := htail d2 (by simp)
              rw [List.sum_cons]
              linarith
            exact ⟨d + (d2 :: rest2).sum, by linarith, rfl⟩
      · push_neg at hge
        have hstep := update_appearing_lt slot settings media d hs (by linarith)
        rw [List.foldl_cons, hstep]
        cases rest with
        | nil =>
            exfalso
            simp at hlast
            linarith
        | cons d2 rest2 =>
            have hlast2 : 3/4 ≤ (slot.timer + d) + (List.dropLast (d2 :: rest2)).sum := by
              rw [List.dropLast_cons₂, List.sum_cons] at hlast
              linarith
            have hbound2 : (slot.timer + d) + (d2 :: rest2).sum ≤ 5/4 := by
              rw [List.sum_cons] at hbound
              linarith
            exact ih ⟨slot.text, DisplayState.appearing, slot.timer + d,
                rustClamp (rustClamp (slot.timer / APPEAR_DURATION) 0 1 * (3/2) - 1/4) 0 1,
                interpolate_quadratic
                  (SLIDE_IN_DISTANCE * (settings.scale_factor * settings.text_scale)) 0
                  (rustClamp (slot.timer / APPEAR_DURATION) 0 1)⟩
              (by simp) rfl (by simp; linarith)
              (fun x hx => hpos x (List.mem_cons_of_mem d hx)) hlast2 hbound2

/-- The two slots of the controller evolve independently under the per-slot
update loop, and the primary index is untouched. -/
theorem fold_updateSlotsOnly_proj (settings : Settings) (media : MediaState) :
    ∀ (dts : List ℚ) (c : DisplayController),
      (dts.foldl (fun cc d => updateSlotsOnly cc settings media d) c).slot0 =
        dts.foldl (fun s d => update_display_slot s settings media d) c.slot0 ∧
      (dts.foldl (fun cc d => updateSlotsOnly cc settings media d) c).slot1 =
        dts.foldl (fun s d => update_display_slot s settings media d) c.slot1 ∧
      (dts.foldl (fun cc d => updateSlotsOnly cc settings media d) c).primary_index =
        c.primary_index := by
  intro dts
  induction dts with
  | nil => intro c; exact ⟨rfl, rfl, rfl⟩
  | cons d rest ih =>
      intro c
      simpa [updateSlotsOnly] using ih (updateSlotsOnly c settings media d)

/-- `swap_and_show` on a controller whose two slots are both `Hidden`: the
primary index flips, the new primary slot jumps straight to `Appearing` with
timer 0 (keeping its opacity and offset), and the other slot is untouched. -/
theorem swap_both_hidden (c : DisplayController) (settings : Settings)
    (h0 : c.slot0.state = DisplayState.hidden) (h1 : c.slot1.state = DisplayState.hidden) :
    (swap_and_show c settings).primary_index = 1 - c.primary_index ∧
    (c.primary_index = 0 →
      (swap_and_show c settings).slot1.state = DisplayState.appearing ∧
      (swap_and_show c settings).slot1.timer = 0 ∧
      (swap_and_show c settings).slot0 = c.slot0) ∧
    (c.primary_index ≠ 0 →
      (swap_and_show c settings).slot0.state = DisplayState.appearing ∧
      (swap_and_show c settings).slot0.timer = 0 ∧
      (swap_and_show c settings).slot1 = c.slot1) := by
  by_cases hp : c.primary_index = 0
  · refine ⟨?_, fun _ => ?_, fun hne => absurd hp hne⟩ <;>
      simp [swap_and_show, slotAt, setSlotAt, hp, h0, h1]
  · have hp1 : 1 - c.primary_index = 0 := by omega
    refine ⟨?_, fun heq => absurd heq hp, fun _ => ?_⟩ <;>
      simp [swap_and_show, slotAt, setSlotAt, hp, hp1, h0, h1]

/-- The possible post-update states of a slot that is not appearing:
`Hidden` stays put, `Visible` can only stay or start disappearing, and
`Disappearing` can only stay or hide. -/
theorem update_state_options (slot : DisplaySlot) (settings : Settings) (media : MediaState)
    (dt : ℚ) :
    (slot.state = DisplayState.hidden →
      (update_display_slot slot settings media dt).state = DisplayState.hidden) ∧
    (slot.state = DisplayState.visible →
      (update_display_slot slot settings media dt).state = DisplayState.visible ∨
      (update_display_slot slot settings media dt).state = DisplayState.disappearing) ∧
    (slot.state = DisplayState.disappearing →
      (update_display_slot slot settings media dt).state = DisplayState.disappearing ∨
      (update_display_slot slot settings media dt).state = DisplayState.hidden) := by
  refine ⟨?_, ?_, ?_⟩ <;> intro hs
  · rw [update_hidden_eq slot settings media dt hs]
    exact hs
  · cases hh : settings.hide_automatically <;>
      · simp only [update_display_slot, hs, hh]
        try dsimp only
        split_ifs <;> simp [hs]
  · simp only [update_display_slot, hs]
    try dsimp only
    split_ifs <;> simp [hs]

/-- A slot that comes out of its per-frame update in an appearing state was
already in an appearing state before it. -/
theorem appearingIsh_of_update (slot : DisplaySlot) (settings : Settings) (media : MediaState)
    (dt : ℚ) (h : appearingIsh (update_display_slot slot settings media dt)) :
    appearingIsh slot := by
  cases hst : slot.state with
  | appearingDelay => exact Or.inl hst
  | appearing => exact Or.inr hst
  | hidden =>
      have := (update_state_options slot settings media dt).1 hst
      rcases h with h | h <;> rw [this] at h <;> exact absurd h (by simp)
  | visible =>
      have := (update_state_options slot settings media dt).2.1 hst
      rcases this with h2 | h2 <;> rcases h with h | h <;> rw [h2] at h <;>
        exact absurd h (by simp)
  | disappearing =>
      have := (update_state_options slot settings media dt).2.2 hst
      rcases this with h2 | h2 <;> rcases h with h | h <;> rw [h2] at h <;>
        exact absurd h (by simp)

/-- `swap_and_show` always makes the freshly chosen primary slot appearing
(it jumps to `Appearing` or starts at `AppearingDelay`), flips the primary
index between 0 and 1, and leaves the other slot untouched. -/
theorem swap_fields (c : DisplayController) (settings : Settings) :
    (c.primary_index = 0 →
      (swap_and_show c settings).primary_index = 1 ∧
      (swap_and_show c settings).slot0 = c.slot0 ∧
      appearingIsh (swap_and_show c settings).slot1) ∧
    (c.primary_index ≠ 0 →
      (swap_and_show c settings).primary_index = 0 ∧
      (swap_and_show c settings).slot1 = c.slot1 ∧
      appearingIsh (swap_and_show c settings).slot0) := by
  constructor <;> intro hp
  · refine ⟨?_, ?_, ?_⟩ <;>
      · simp only [swap_and_show, slotAt, setSlotAt, hp, appearingIsh]
        try dsimp only
        split_ifs <;> simp_all
  · have hp1 : 1 - c.primary_index = 0 := by omega
    refine ⟨?_, ?_, ?_⟩ <;>
      · simp only [swap_and_show, slotAt, setSlotAt, hp, hp1, appearingIsh]
        try dsimp only
        split_ifs <;> simp_all

/-- `swap_and_show` preserves the controller invariant whenever the current
primary slot is not appearing (exactly the situations in which the trigger
decision calls it). -/
theorem swap_and_show_inv (d : DisplayController) (settings : Settings)
    (hinv : controllerInv d) (hprim : ¬ appearingIsh (primarySlot d)) :
    controllerInv (swap_and_show d settings) := by
  obtain ⟨hp, h0, h1⟩ := hinv
  by_cases hp0 : d.primary_index = 0
  · have hns0 : ¬ appearingIsh d.slot0 := by
      unfold primarySlot slotAt at hprim
      rw [hp0] at hprim
      simpa using hprim
    obtain ⟨hpr, hs0, hish1⟩ := (swap_fields d settings).1 hp0
    refine ⟨by rw [hpr], ?_, fun _ => hpr⟩
    intro hish0
    rw [hs0] at hish0
    exact absurd hish0 hns0
  · have hns1 : ¬ appearingIsh d.slot1 := by
      unfold primarySlot slotAt at hprim
      rw [if_neg hp0] at hprim
      exact hprim
    obtain ⟨hpr, hs1, hish0⟩ := (swap_fields d settings).2 hp0
    refine ⟨by rw [hpr]; norm_num, fun _ => hpr, ?_⟩
    intro hish1
    rw [hs1] at hish1
    exact absurd hish1 hns1

/-- The trigger decision preserves the controller invariant. -/
theorem trigger_phase_inv (d : DisplayController) (settings : Settings) (media : MediaState)
    (hinv : controllerInv d) : controllerInv (trigger_phase d settings media) := by
  unfold trigger_phase
  try dsimp only
  split_ifs <;>
    first
      | exact (show controllerInv _ from hinv)
      | (split <;>
          first
            | exact (show controllerInv _ from hinv)
            | (refine swap_and_show_inv _ settings (show controllerInv _ from hinv) ?_
               intro hish
               simp only [appearingIsh, primarySlot, slotAt] at hish
               rcases hish with hish | hish <;> simp_all [slotAt]))

/-- Every guarded-reachable controller satisfies the inductive invariant. -/
theorem reachable_controllerInv : ∀ c, ReachableG c → controllerInv c := by
  intro c h
  induction h with
  | init =>
      refine ⟨Nat.zero_le 1, fun _ => rfl, fun hish => ?_⟩
      exact absurd hish (by simp [appearingIsh, DisplayController.new])
  | step c settings media dt hc hdt ih =>
      have hti := trigger_phase_inv c settings media ih
      exact ⟨hti.1, fun h => hti.2.1 (appearingIsh_of_update _ settings media dt h),
        fun h => hti.2.2 (appearingIsh_of_update _ settings media dt h)⟩

/-- `toByte` is the identity on integral byte values. -/
theorem toByte_natCast (n : ℕ) (h : n ≤ 255) : toByte (n : ℚ) = n := by
  unfold toByte rustRound
  have h0 : (0 : ℚ) ≤ n := by positivity
  rw [if_pos h0]
  have hf : ⌊(n : ℚ) + 1/2⌋ = n := by
    rw [add_comm, Int.floor_add_nat]
    norm_num
  rw [hf]
  omega

/-- Un-normalizing an in-range byte channel is the identity. -/
theorem toByte_div_mul (n : ℕ) (h : n ≤ 255) : toByte ((n : ℚ) / 255 * 255) = n := by
  rw [div_mul_cancel₀ _ (by norm_num : (255 : ℚ) ≠ 0)]
  exact toByte_natCast n h

/-- C7: `blend_pixel` implements the spec's non-premultiplied source-over
blend (with `sa = (src_alpha/255) * opacity`, each channel is
`src*sa + dst*(1-sa)` and alpha is `sa + dst_a*(1-sa)`, rounded and clamped
to bytes); in particular an opaque source at opacity 1 over a background
pixel cleared to transparent black replaces it, and clearing at background
opacity 0 produces the transparent black pixel `(0,0,0,0)`. -/
theorem blend_pixel_source_over (db dg dr da src_r src_g src_b src_a : ℕ) (opacity : ℚ)
    (hdb : db ≤ 255) (hdg : dg ≤ 255) (hdr : dr ≤ 255) (hda : da ≤ 255)
    (hop0 : 0 ≤ opacity) (hop1 : opacity ≤ 1) :
    blend_pixel (db, dg, dr, da) src_r src_g src_b src_a opacity =
      specSourceOver (db, dg, dr, da) src_r src_g src_b src_a opacity ∧
    (∀ r g b : ℕ, r ≤ 255 → g ≤ 255 → b ≤ 255 →
      blend_pixel (0, 0, 0, 0) r g b 255 1 = (b, g, r, 255)) ∧
    (∀ b g r a : ℕ, fill_background [b, g, r, a] false 0 = [0, 0, 0, 0]) := by
  refine ⟨?_, ?_, ?_⟩
  · by_cases hsa : ((src_a : ℚ) / 255) * opacity ≤ 0
    · have hge : 0 ≤ ((src_a : ℚ) / 255) * opacity := by positivity
      have h0 : ((src_a : ℚ) / 255) * opacity = 0 := le_antisymm hsa hge
      simp only [blend_pixel, specSourceOver, h0, if_pos le_rfl]
      norm_num
      exact ⟨(toByte_natCast db hdb).symm, (toByte_natCast dg hdg).symm,
        (toByte_natCast dr hdr).symm, (toByte_natCast da hda).symm⟩
    · simp only [blend_pixel, specSourceOver, if_neg hsa]
  · intro r g b hr hg hb
    have h1 : ((255 : ℕ) : ℚ) / 255 * 1 = 1 := by norm_num
    simp only [blend_pixel, h1]
    norm_num
    exact ⟨toByte_natCast b hb, toByte_natCast g hg, toByte_natCast r hr,
      toByte_natCast 255 le_rfl⟩
  · intro b g r a
    simp [fill_background, fillBytes, rustClamp, rustRound]
    norm_num

/-- Witness for C7: concrete byte values for both conjuncts of the blend
characterization. -/
theorem blend_pixel_source_over_witness :
    blend_pixel (0, 0, 0, 0) 10 20 30 255 1 = (30, 20, 10, 255) ∧
    blend_pixel (8, 16, 32, 64) 5 6 7 8 (1/2) = specSourceOver (8, 16, 32, 64) 5 6 7 8 (1/2) := by
  constructor
  · exact (blend_pixel_source_over 0 0 0 0 10 20 30 255 1 (by norm_num) (by norm_num)
      (by norm_num) (by norm_num) (by norm_num) (by norm_num)).2.1 10 20 30
      (by norm_num) (by norm_num) (by norm_num)
  · exact (blend_pixel_source_over 8 16 32 64 5 6 7 8 (1/2) (by norm_num) (by norm_num)
      (by norm_num) (by norm_num) (by norm_num) (by norm_num)).1

/-- C8: a character (other than newline) with no glyph in the font advances
the cursor by the fallback advance times scale and leaves the canvas
untouched; a mapped glyph always advances the cursor by
`glyph.x_advance * scale` (and leaves the vertical cursor alone), even when
every pixel of its cell is clipped. -/
theorem draw_char_advance (canvas_w canvas_h : ℕ) (font : BitmapFont) (atlas : FontAtlas)
    (scale origin_x opacity : ℚ) (canvas : List ℕ) (cursor_x cursor_y : ℚ) (ch : Char)
    (hn : ch ≠ '\n') :
    (font.glyphs ch.toNat = none →
      drawCharStep canvas_w canvas_h font atlas scale origin_x opacity
        (canvas, cursor_x, cursor_y) ch =
      (canvas, cursor_x + font.space_advance * scale, cursor_y)) ∧
    (∀ glyph, font.glyphs ch.toNat = some glyph →
      (drawCharStep canvas_w canvas_h font atlas scale origin_x opacity
        (canvas, cursor_x, cursor_y) ch).2.1 = cursor_x + glyph.x_advance * scale ∧
      (drawCharStep canvas_w canvas_h font atlas scale origin_x opacity
        (canvas, cursor_x, cursor_y) ch).2.2 = cursor_y) := by
  constructor
  · intro h
    simp [drawCharStep, hn, h]
  · intro glyph h
    simp [drawCharStep, hn, h]

/-- Witness for C8: the unmapped character `B` leaves the one-pixel canvas
alone and advances by the fallback advance; the mapped character `A`
advances by its glyph advance. -/
theorem draw_char_advance_witness :
    drawCharStep 1 1 witFont witAtlas 1 0 1 ([0, 0, 0, 0], 0, 0) 'B' =
      ([0, 0, 0, 0], 0 + 8 * 1, 0) ∧
    (drawCharStep 1 1 witFont witAtlas 1 0 1 ([0, 0, 0, 0], 0, 0) 'A').2.1 = 0 + 10 * 1 := by
  constructor
  · exact (draw_char_advance 1 1 witFont witAtlas 1 0 1 [0, 0, 0, 0] 0 0 'B'
      (by decide)).1 (by decide)
  · exact ((draw_char_advance 1 1 witFont witAtlas 1 0 1 [0, 0, 0, 0] 0 0 'A'
      (by decide)).2 ⟨0, 0, 8, 8, 0, 0, 10⟩ (by decide)).1

/-- `blendPixelAt` never changes the canvas length. -/
theorem blendPixelAt_length (canvas : List ℕ) (i src_r src_g src_b src_a : ℕ)
    (opacity : ℚ) :
    (blendPixelAt canvas i src_r src_g src_b src_a opacity).length = canvas.length := by
  simp [blendPixelAt]

/-- `drawGlyphPixel` never changes the canvas length. -/
theorem drawGlyphPixel_length (canvas_w : ℕ) (atlas : FontAtlas) (glyph : Glyph)
    (scale opacity x0 : ℚ) (src_y dest_y : ℤ) (canvas : List ℕ) (dx : ℕ) :
    (drawGlyphPixel canvas_w atlas glyph scale opacity x0 src_y dest_y canvas dx).length =
      canvas.length := by
  unfold drawGlyphPixel
  try dsimp only
  split_ifs <;> simp [blendPixelAt_length]

/-- Folding a canvas-length-preserving step preserves the canvas length. -/
theorem foldl_length_preserved {α : Type} (f : List ℕ → α → List ℕ)
    (hf : ∀ c x, (f c x).length = c.length) :
    ∀ (l : List α) (c : List ℕ), (l.foldl f c).length = c.length := by
  intro l
  induction l with
  | nil => intro c; rfl
  | cons x xs ih => intro c; rw [List.foldl_cons, ih, hf]

/-- `drawGlyphRow` never changes the canvas length. -/
theorem drawGlyphRow_length (canvas_w canvas_h : ℕ) (atlas : FontAtlas) (glyph : Glyph)
    (scale opacity x0 y0 : ℚ) (dest_w : ℤ) (canvas : List ℕ) (dy : ℕ) :
    (drawGlyphRow canvas_w canvas_h atlas glyph scale opacity x0 y0 dest_w canvas dy).length =
      canvas.length := by
  unfold drawGlyphRow
  try dsimp only
  split_ifs <;>
    simp [foldl_length_preserved _ (fun c x => drawGlyphPixel_length canvas_w atlas glyph
      scale opacity x0 _ _ c x)]

/-- `drawCharStep` never changes the canvas length. -/
theorem drawCharStep_length (canvas_w canvas_h : ℕ) (font : BitmapFont) (atlas : FontAtlas)
    (scale origin_x opacity : ℚ) (acc : List ℕ × ℚ × ℚ) (ch : Char) :
    (drawCharStep canvas_w canvas_h font atlas scale origin_x opacity acc ch).1.length =
      acc.1.length := by
  obtain ⟨canvas, cx, cy⟩ := acc
  unfold drawCharStep
  by_cases hn : ch = '\n'
  · simp [hn]
  · cases hg : font.glyphs ch.toNat with
    | none => simp [hn, hg]
    | some glyph =>
        simp only [hn, hg, if_neg hn]
        simp [foldl_length_preserved _ (fun c x => drawGlyphRow_length canvas_w canvas_h
          atlas glyph scale opacity _ _ _ c x)]

/-- The canvas-length component of the `draw_text` fold is invariant. -/
theorem draw_text_fold_length (canvas_w canvas_h : ℕ) (font : BitmapFont)
    (atlas : FontAtlas) (scale origin_x opacity : ℚ) :
    ∀ (text : List Char) (acc : List ℕ × ℚ × ℚ),
      (text.foldl (drawCharStep canvas_w canvas_h font atlas scale origin_x opacity)
        acc).1.length = acc.1.length := by
  intro text
  induction text with
  | nil => intro acc; rfl
  | cons c cs ih =>
      intro acc
      rw [List.foldl_cons, ih, drawCharStep_length]

/-- C10: `draw_text` only writes inside the canvas and only reads inside the
atlas: the canvas is never resized, and the per-pixel guards of the code
(the exact disjunctions tested by `drawGlyphPixel`) force the destination
and source byte indices into the respective buffers, for all text, scale,
origin, opacity and glyph metric values. -/
theorem draw_text_in_bounds :
    (∀ (canvas : List ℕ) (canvas_w canvas_h : ℕ) (font : BitmapFont) (atlas : FontAtlas)
        (text : List Char) (scale origin_x origin_y opacity : ℚ),
      (draw_text canvas canvas_w canvas_h font atlas text scale origin_x origin_y
        opacity).length = canvas.length) ∧
    (∀ (canvas_w canvas_h : ℕ) (canvas : List ℕ) (dest_x dest_y : ℤ),
      canvas.length = canvas_w * canvas_h * 4 →
      ¬(dest_x < 0 ∨ (canvas_w : ℤ) ≤ dest_x) →
      ¬(dest_y < 0 ∨ (canvas_h : ℤ) ≤ dest_y) →
      dstIndex canvas_w dest_x.toNat dest_y.toNat + 3 < canvas.length) ∧
    (∀ (atlas : FontAtlas) (tex_x tex_y : ℤ),
      atlas.pixels.length = atlas.width * atlas.height * 4 →
      ¬(tex_x < 0 ∨ tex_y < 0 ∨ (atlas.width : ℤ) ≤ tex_x ∨ (atlas.height : ℤ) ≤ tex_y) →
      srcIndex atlas tex_x.toNat tex_y.toNat + 3 < atlas.pixels.length) := by
  refine ⟨?_, ?_, ?_⟩
  · intro canvas canvas_w canvas_h font atlas text scale origin_x origin_y opacity
    unfold draw_text
    rw [draw_text_fold_length]
  · intro canvas_w canvas_h canvas dest_x dest_y hlen hx hy
    push_neg at hx hy
    have hxw : dest_x.toNat < canvas_w := by omega
    have hyh : dest_y.toNat < canvas_h := by omega
    have key : dest_y.toNat * canvas_w + dest_x.toNat + 1 ≤ canvas_h * canvas_w := by
      calc dest_y.toNat * canvas_w + dest_x.toNat + 1
          ≤ dest_y.toNat * canvas_w + canvas_w := by omega
        _ = (dest_y.toNat + 1) * canvas_w := by ring
        _ ≤ canvas_h * canvas_w := Nat.mul_le_mul_right _ (by omega)
    rw [hlen]
    unfold dstIndex
    calc (dest_y.toNat * canvas_w + dest_x.toNat) * 4 + 3
        < (dest_y.toNat * canvas_w + dest_x.toNat + 1) * 4 := by omega
      _ ≤ canvas_h * canvas_w * 4 := Nat.mul_le_mul_right _ key
      _ = canvas_w * canvas_h * 4 := by ring
  · intro atlas tex_x tex_y hlen hg
    push_neg at hg
    obtain ⟨hx0, hy0, hxw, hyh⟩ := hg
    have hxw' : tex_x.toNat < atlas.width := by omega
    have hyh' : tex_y.toNat < atlas.height := by omega
    have key : tex_y.toNat * atlas.width + tex_x.toNat + 1 ≤ atlas.height * atlas.width := by
      calc tex_y.toNat * atlas.width + tex_x.toNat + 1
          ≤ tex_y.toNat * atlas.width + atlas.width := by omega
        _ = (tex_y.toNat + 1) * atlas.width := by ring
        _ ≤ atlas.height * atlas.width := Nat.mul_le_mul_right _ (by omega)
    rw [hlen]
    unfold srcIndex
    calc (tex_y.toNat * atlas.width + tex_x.toNat) * 4 + 3
        < (tex_y.toNat * atlas.width + tex_x.toNat + 1) * 4 := by omega
      _ ≤ atlas.height * atlas.width * 4 := Nat.mul_le_mul_right _ key
      _ = atlas.width * atlas.height * 4 := by ring

/-- Witness for C10: a concrete 2 by 2 canvas and the witness atlas, with
in-range destination and texture coordinates. -/
theorem draw_text_in_bounds_witness :
    (draw_text (List.replicate 16 0) 2 2 witFont witAtlas ("A".toList) 1 0 0 1).length =
      (List.replicate (16 : ℕ) (0 : ℕ)).length ∧
    dstIndex 2 (1 : ℤ).toNat (1 : ℤ).toNat + 3 < (List.replicate (16 : ℕ) (0 : ℕ)).length ∧
    srcIndex witAtlas (1 : ℤ).toNat (1 : ℤ).toNat + 3 < witAtlas.pixels.length := by
  refine ⟨draw_text_in_bounds.1 (List.replicate 16 0) 2 2 witFont witAtlas ("A".toList)
    1 0 0 1, ?_, ?_⟩
  · exact draw_text_in_bounds.2.1 2 2 (List.replicate 16 0) 1 1 (by simp) (by decide)
      (by decide)
  · exact draw_text_in_bounds.2.2 witAtlas 1 1 (by simp [witAtlas]) (by decide)

/-- C2 counterexample: under the claim's raw interleavings of
`swap_and_show` calls and per-frame slot updates (positive `dt`), the
invariant fails three ways.  Two consecutive swaps from the initial state
put BOTH slots into `Appearing`; the eight-operation run `c2Raw7` (swap,
1 s, 1 s, swap, 1 s, 2.5 s, 1 s with the default auto-hide of 2.5 s) puts
BOTH slots into `Disappearing`; and one more 1 s frame (`c2Raw8`) leaves
both slots `Hidden` with offset −72 right after their update. -/
theorem c2_raw_interleaving_counterexample :
    ((swap_and_show (swap_and_show DisplayController.new Settings.default)
        Settings.default).slot0.state = DisplayState.appearing ∧
     (swap_and_show (swap_and_show DisplayController.new Settings.default)
        Settings.default).slot1.state = DisplayState.appearing) ∧
    (c2Raw7.slot0.state = DisplayState.disappearing ∧
     c2Raw7.slot1.state = DisplayState.disappearing) ∧
    (c2Raw8.slot0.state = DisplayState.hidden ∧
     c2Raw8.slot0.offset_x = -72 ∧
     c2Raw8.slot1.state = DisplayState.hidden ∧
     c2Raw8.slot1.offset_x = -72) := by
  norm_num [c2Raw8, c2Raw7, updateSlotsOnly, swap_and_show, primarySlot, slotAt, setSlotAt,
    update_display_slot, rustClamp, interpolate_quadratic,
    DisplayController.new, Settings.default, MediaState.default, MediaInfo.default,
    APPEAR_DELAY, APPEAR_DURATION, DISAPPEAR_DURATION, STAY_TIME,
    SLIDE_IN_DISTANCE, SLIDE_OUT_DISTANCE, max_def, min_def]

/-- C2 amended: in every controller state reachable through the code's own
trigger discipline (`update_display_state` steps with positive `dt`,
arbitrary settings and media), at most one slot is in
`AppearingDelay`/`Appearing` and that slot is the primary; and a slot that
is `Hidden` going into its per-frame update comes out with opacity 0 and
offset 0 (and still `Hidden`). -/
theorem controller_invariant :
    (∀ c, ReachableG c →
      c.primary_index ≤ 1 ∧
      ¬(appearingIsh c.slot0 ∧ appearingIsh c.slot1) ∧
      (appearingIsh c.slot0 → c.primary_index = 0) ∧
      (appearingIsh c.slot1 → c.primary_index = 1)) ∧
    (∀ (slot : DisplaySlot) (settings : Settings) (media : MediaState) (dt : ℚ),
      slot.state = DisplayState.hidden →
      (update_display_slot slot settings media dt).opacity = 0 ∧
      (update_display_slot slot settings media dt).offset_x = 0 ∧
      (update_display_slot slot settings media dt).state = DisplayState.hidden) := by
  constructor
  · intro c hc
    obtain ⟨hp, h0, h1⟩ := reachable_controllerInv c hc
    refine ⟨hp, ?_, h0, h1⟩
    rintro ⟨hish0, hish1⟩
    have e0 := h0 hish0
    have e1 := h1 hish1
    omega
  · intro slot settings media dt hs
    rw [update_hidden_eq slot settings media dt hs]
    exact ⟨rfl, rfl, hs⟩

/-- Witness for C2 amended: the initial controller is reachable and
satisfies the invariant, and a concrete `Hidden` slot with stale opacity
and offset is pinned back to 0 by its update. -/
theorem controller_invariant_witness :
    (DisplayController.new.primary_index ≤ 1 ∧
     ¬(appearingIsh DisplayController.new.slot0 ∧
        appearingIsh DisplayController.new.slot1) ∧
     (appearingIsh DisplayController.new.slot0 → DisplayController.new.primary_index = 0) ∧
     (appearingIsh DisplayController.new.slot1 → DisplayController.new.primary_index = 1)) ∧
    ((update_display_slot ⟨[], DisplayState.hidden, 7, 9, 11⟩ Settings.default
        MediaState.default 2).opacity = 0 ∧
     (update_display_slot ⟨[], DisplayState.hidden, 7, 9, 11⟩ Settings.default
        MediaState.default 2).offset_x = 0 ∧
     (update_display_slot ⟨[], DisplayState.hidden, 7, 9, 11⟩ Settings.default
        MediaState.default 2).state = DisplayState.hidden) :=
  ⟨controller_invariant.1 DisplayController.new ReachableG.init,
   controller_invariant.2 ⟨[], DisplayState.hidden, 7, 9, 11⟩ Settings.default
     MediaState.default 2 rfl⟩

/-- C1 counterexample: from a fresh controller (both slots `Hidden`), one
`swap_and_show` followed by the single-frame partition `[1.25]` of the total
time 1.25 s leaves the primary slot in `Appearing` with opacity 0 and
offset 72 (the slide-in start), not `Visible` with opacity 1 and offset 0;
the swap also skipped the appear delay, jumping straight to `Appearing`. -/
theorem c1_single_frame_counterexample :
    (List.sum [(5/4 : ℚ)] = 5/4 ∧ ∀ d ∈ [(5/4 : ℚ)], 0 < d) ∧
    (primarySlot ([(5/4 : ℚ)].foldl
        (fun c d => updateSlotsOnly c Settings.default MediaState.default d)
        (swap_and_show DisplayController.new Settings.default))).state =
      DisplayState.appearing ∧
    (primarySlot ([(5/4 : ℚ)].foldl
        (fun c d => updateSlotsOnly c Settings.default MediaState.default d)
        (swap_and_show DisplayController.new Settings.default))).opacity = 0 ∧
    (primarySlot ([(5/4 : ℚ)].foldl
        (fun c d => updateSlotsOnly c Settings.default MediaState.default d)
        (swap_and_show DisplayController.new Settings.default))).offset_x = 72 := by
  refine ⟨⟨by simp, ?_⟩, ?_⟩
  · intro d hd
    simp at hd
    rw [hd]
    norm_num
  · norm_num [primarySlot, slotAt, setSlotAt, updateSlotsOnly, swap_and_show,
      update_display_slot, update_slot_text, format_media_text, rustClamp,
      interpolate_quadratic, DisplayController.new, Settings.default, MediaState.default,
      MediaInfo.default, APPEAR_DELAY, APPEAR_DURATION, DISAPPEAR_DURATION, STAY_TIME,
      SLIDE_IN_DISTANCE, SLIDE_OUT_DISTANCE, max_def, min_def]

/-- C1 amended: starting from a controller whose two slots are both
`Hidden`, `swap_and_show` puts the new primary straight into `Appearing`
(the appear delay is skipped because the partner slot is `Hidden`); for
every partition of the total time 1.25 s into positive frame steps whose
prefix before the final step sums to at least the appear duration 0.75 s,
and provided any configured auto-hide timeout is at least 0.5 s, the
per-frame updates leave the primary slot `Visible` with opacity 1 and
offset 0. -/
theorem swap_then_updates_visible (c : DisplayController) (settings : Settings)
    (media : MediaState) (dts : List ℚ)
    (h0 : c.slot0.state = DisplayState.hidden) (h1 : c.slot1.state = DisplayState.hidden)
    (hpos : ∀ d ∈ dts, 0 < d) (hsum : dts.sum = 5/4)
    (hlast : 3/4 ≤ (dts.dropLast).sum)
    (hhide : ∀ hq, settings.hide_automatically = some hq → 1/2 ≤ hq) :
    (primarySlot (dts.foldl (fun cc d => updateSlotsOnly cc settings media d)
        (swap_and_show c settings))).state = DisplayState.visible ∧
    (primarySlot (dts.foldl (fun cc d => updateSlotsOnly cc settings media d)
        (swap_and_show c settings))).opacity = 1 ∧
    (primarySlot (dts.foldl (fun cc d => updateSlotsOnly cc settings media d)
        (swap_and_show c settings))).offset_x = 0 := by
  have hne : dts ≠ [] := by
    intro h
    rw [h] at hsum
    norm_num at hsum
  obtain ⟨hswp, hcase0, hcase1⟩ := swap_both_hidden c settings h0 h1
  obtain ⟨hf0, hf1, hfp⟩ :=
    fold_updateSlotsOnly_proj settings media dts (swap_and_show c settings)
  by_cases hp : c.primary_index = 0
  · obtain ⟨hs1, ht1, _⟩ := hcase0 hp
    obtain ⟨u, hu, hrun⟩ := appearing_run settings media hhide dts
      (swap_and_show c settings).slot1 hne hs1 (by simp [ht1]) hpos
      (by simpa [ht1] using hlast) (by simp [ht1, hsum])
    have hidx : (dts.foldl (fun cc d => updateSlotsOnly cc settings media d)
        (swap_and_show c settings)).primary_index = 1 := by
      rw [hfp, hswp, hp]
    have hps : primarySlot (dts.foldl (fun cc d => updateSlotsOnly cc settings media d)
        (swap_and_show c settings)) =
        ⟨(swap_and_show c settings).slot1.text, DisplayState.visible, u, 1, 0⟩ := by
      unfold primarySlot slotAt
      rw [hidx, hf1, hrun]
      simp
    rw [hps]
    exact ⟨rfl, rfl, rfl⟩
  · obtain ⟨hs0, ht0, _⟩ := hcase1 hp
    obtain ⟨u, hu, hrun⟩ := appearing_run settings media hhide dts
      (swap_and_show c settings).slot0 hne hs0 (by simp [ht0]) hpos
      (by simpa [ht0] using hlast) (by simp [ht0, hsum])
    have hidx : (dts.foldl (fun cc d => updateSlotsOnly cc settings media d)
        (swap_and_show c settings)).primary_index = 0 := by
      rw [hfp, hswp]
      omega
    have hps : primarySlot (dts.foldl (fun cc d => updateSlotsOnly cc settings media d)
        (swap_and_show c settings)) =
        ⟨(swap_and_show c settings).slot0.text, DisplayState.visible, u, 1, 0⟩ := by
      unfold primarySlot slotAt
      rw [hidx, hf0, hrun]
      simp
    rw [hps]
    exact ⟨rfl, rfl, rfl⟩

/-- Witness for C1 amended: the fresh controller, default settings, and the
two-step partition `[0.75, 0.5]` land the primary slot in `Visible` with
opacity 1 and offset 0. -/
theorem swap_then_updates_visible_witness :
    (primarySlot ([(3/4 : ℚ), 1/2].foldl
        (fun c d => updateSlotsOnly c Settings.default MediaState.default d)
        (swap_and_show DisplayController.new Settings.default))).state =
      DisplayState.visible ∧
    (primarySlot ([(3/4 : ℚ), 1/2].foldl
        (fun c d => updateSlotsOnly c Settings.default MediaState.default d)
        (swap_and_show DisplayController.new Settings.default))).opacity = 1 ∧
    (primarySlot ([(3/4 : ℚ), 1/2].foldl
        (fun c d => updateSlotsOnly c Settings.default MediaState.default d)
        (swap_and_show DisplayController.new Settings.default))).offset_x = 0 := by
  refine swap_then_updates_visible DisplayController.new Settings.default
    MediaState.default [3/4, 1/2] rfl rfl ?_ (by norm_num) (by norm_num) ?_
  · intro d hd
    simp at hd
    rcases hd with h | h <;> rw [h] <;> norm_num
  intro hq hh
  simp only [Settings.default, Option.some.injEq] at hh
  rw [← hh]
  norm_num

/-- C6: formatting any Media Snapshot whose status is `Stopped` yields the
empty string, regardless of title, artist, and the configuration flags. -/
theorem format_stopped_empty (settings : Settings) (title artist : List Char) :
    format_media_text settings { title := title, artist := artist, status := .stopped } = [] := by
  simp [format_media_text]

/-- C4: with `hide_automatically = Some(2.5)`, a `Visible` slot transitions to
`Disappearing` exactly at the first per-frame update whose pre-update timer is
at least 2.5 s, for every playback status and regardless of
`show_playback_status`. -/
theorem visible_hide_timeout (slot : DisplaySlot) (settings : Settings) (media : MediaState)
    (dt : ℚ) (hhide : settings.hide_automatically = some (5/2))
    (hs : slot.state = DisplayState.visible) :
    (5/2 ≤ slot.timer →
      (update_display_slot slot settings media dt).state = DisplayState.disappearing) ∧
    (slot.timer < 5/2 →
      (update_display_slot slot settings media dt).state = DisplayState.visible) := by
  constructor <;> intro h
  · have h0 : ¬ slot.timer = 0 := by
      intro h0
      rw [h0] at h
      norm_num at h
    simp [update_display_slot, hs, hhide, h0, h]
  · have h52 : ¬ (5/2 : ℚ) ≤ 0 := by norm_num
    by_cases h0 : slot.timer = 0
    · simp [update_display_slot, hs, hhide, h0, h52]
    · simp [update_display_slot, hs, hhide, h0, not_le.mpr h]

/-- Witness for C4: a concrete `Visible` slot with timer 3 ≥ 2.5 transitions
to `Disappearing` under the default settings. -/
theorem visible_hide_timeout_witness :
    Settings.default.hide_automatically = some (5/2) ∧
    (update_display_slot ⟨[], .visible, 3, 1, 0⟩ Settings.default MediaState.default
      (1/10)).state = DisplayState.disappearing := by
  refine ⟨rfl, ?_⟩
  exact (visible_hide_timeout ⟨[], .visible, 3, 1, 0⟩ Settings.default MediaState.default
    (1/10) rfl rfl).1 (by norm_num)

/-- C5 counterexample: with status `Playing` (which is "not Stopped") the
formatter prepends the playing glyph and separator, so the output is not
the bare two lines `"Bar\nFoo"`. -/
theorem format_topic_playing_prefixed :
    format_media_text { Settings.default with show_artist_name := true }
      ⟨"Foo - Bar".toList, "Foo - Topic".toList, .playing⟩ ≠ "Bar\nFoo".toList := by
  decide

/-- C5 amended: with artist `"Foo - Topic"` and title `"Foo - Bar"` under
`show_artist_name = true`, the `" - Topic"` suffix is stripped from the artist
and the leading `"Foo - "` prefix from the title, giving the lines `"Bar"`
and `"Foo"`; the first line is additionally preceded by the status glyph and
thin-space separator whenever one applies (always for `Playing`, and for
`Paused` exactly when `show_playback_status` is on). -/
theorem format_topic_strip :
    (format_media_text
        { Settings.default with show_artist_name := true, show_playback_status := false }
        ⟨"Foo - Bar".toList, "Foo - Topic".toList, .paused⟩ = "Bar\nFoo".toList) ∧
    (∀ spb : Bool,
      format_media_text
        { Settings.default with show_artist_name := true, show_playback_status := spb }
        ⟨"Foo - Bar".toList, "Foo - Topic".toList, .playing⟩ =
      "♪~   ".toList ++ "Bar\nFoo".toList) ∧
    (format_media_text
        { Settings.default with show_artist_name := true, show_playback_status := true }
        ⟨"Foo - Bar".toList, "Foo - Topic".toList, .paused⟩ =
      "⏸~   ".toList ++ "Bar\nFoo".toList) := by
  refine ⟨by decide, ?_, by decide⟩
  intro spb
  cases spb <;> decide

/-- C3 counterexample: with the primary slot `Visible` and the title
unchanged but the artist changed, the trigger decision does call
`swap_and_show` and the states change (the formerly hidden slot becomes
`Appearing`). -/
theorem trigger_artist_change_swaps :
    (primarySlot
        ⟨⟨[], .hidden, 0, 0, 0⟩, ⟨[], .visible, 1, 1, 0⟩, 1,
          ⟨"t".toList, "a1".toList, .playing⟩⟩).state = DisplayState.visible ∧
    ("t".toList : List Char) = "t".toList ∧
    (trigger_phase
        ⟨⟨[], .hidden, 0, 0, 0⟩, ⟨[], .visible, 1, 1, 0⟩, 1,
          ⟨"t".toList, "a1".toList, .playing⟩⟩
        Settings.default ⟨⟨"t".toList, "a2".toList, .playing⟩⟩).slot0.state =
      DisplayState.appearing := by
  decide

/-- C3 amended: if the primary slot is `Visible` and both the title and the
artist are unchanged from the last-seen Media Snapshot, the trigger decision
leaves both slots and the primary index unchanged (no `swap_and_show`),
whatever the status change and configuration. -/
theorem trigger_visible_unchanged (display : DisplayController) (settings : Settings)
    (media : MediaState)
    (hv : (primarySlot display).state = DisplayState.visible)
    (ht : media.info.title = display.current_media.title)
    (ha : media.info.artist = display.current_media.artist) :
    (trigger_phase display settings media).slot0 = display.slot0 ∧
    (trigger_phase display settings media).slot1 = display.slot1 ∧
    (trigger_phase display settings media).primary_index = display.primary_index := by
  by_cases hd : display.current_media = media.info
  · simp [trigger_phase, hd, primarySlot]
  · simp [trigger_phase, hd, ht, ha, primarySlot, slotAt] at hv ⊢
    simp [hv, slotAt]

/-- Witness for C3 amended: a pure status flip (Paused to Playing with
status display on) while the primary slot is `Visible` leaves both slots
and the primary index unchanged. -/
theorem trigger_visible_unchanged_witness :
    (trigger_phase
        ⟨⟨[], .hidden, 0, 0, 0⟩, ⟨[], .visible, 1, 1, 0⟩, 1,
          ⟨"t".toList, "a".toList, .paused⟩⟩
        { Settings.default with show_playback_status := true }
        ⟨⟨"t".toList, "a".toList, .playing⟩⟩).slot0 = ⟨[], .hidden, 0, 0, 0⟩ ∧
    (trigger_phase
        ⟨⟨[], .hidden, 0, 0, 0⟩, ⟨[], .visible, 1, 1, 0⟩, 1,
          ⟨"t".toList, "a".toList, .paused⟩⟩
        { Settings.default with show_playback_status := true }
        ⟨⟨"t".toList, "a".toList, .playing⟩⟩).slot1 = ⟨[], .visible, 1, 1, 0⟩ := by
  have h := trigger_visible_unchanged
    ⟨⟨[], .hidden, 0, 0, 0⟩, ⟨[], .visible, 1, 1, 0⟩, 1, ⟨"t".toList, "a".toList, .paused⟩⟩
    { Settings.default with show_playback_status := true }
    ⟨⟨"t".toList, "a".toList, .playing⟩⟩ (by decide) (by decide) (by decide)
  exact ⟨h.1, h.2.1⟩
